import Mathlib

/-!
# just-a-plugin: the question filter, the question processor and the dispatcher

Shallow embedding of `main.go`.

* The package-level variable `questionPattern` is initialised by
  `regexp.MustCompile` on the raw-string pattern of line 19.  The fragment of
  Go's standard `regexp` / `regexp/syntax` packages that this pattern exercises
  (literals, `^`, backslash escapes, bracket classes, `*`) is embedded below:
  the parser, the leftmost-first matcher, `MatchString` and `ReplaceAllString`.
  Text is a list of runes; positions are rune indices.
* The completion client, the process environment and the chat event stream are
  outside the repository and are parameters of the definitions.
* Side effects (requests sent, `processQuestion` invocations, log records) are
  recorded in an explicit `World`; a Go panic is an explicit outcome.
-/

namespace JustAPlugin

/-! ## `regexp/syntax`: parse errors -/

/-- Error codes of `regexp/syntax` that the modelled fragment can raise. -/
inductive ErrorCode
  | ErrInvalidCharRange
  | ErrInvalidEscape
  | ErrMissingBracket
  | ErrMissingRepeatArgument
  | ErrInvalidRepeatOp
  | ErrTrailingBackslash
  deriving DecidableEq, Repr

/-- Result of parsing: a value, a `syntax.Error` (code and offending text), or
`outside` when the pattern uses syntax that this embedding does not cover
(groups, alternation, `.`, `$`, `+`, `?`, counted repetition, named classes). -/
inductive Parsed (α : Type)
  | ok (a : α)
  | error (code : ErrorCode) (expr : String)
  | outside
  deriving DecidableEq, Repr

/-! ## `regexp/syntax`: the parsed expression -/

/-- One operand of a concatenation: `OpLiteral` of one rune, `OpCharClass`
(rune ranges, possibly negated) or `OpBeginText`. Runes are code points. -/
inductive Atom
  | literal (r : Nat)
  | charClass (negated : Bool) (ranges : List (Nat × Nat))
  | beginText
  deriving DecidableEq, Repr

/-- An atom, possibly under a greedy `OpStar`. -/
structure Piece where
  atom : Atom
  star : Bool
  deriving DecidableEq, Repr

/-- A compiled pattern: the source text and the concatenation it denotes. -/
structure Regexp where
  expr : String
  pieces : List Piece
  deriving DecidableEq, Repr

/-! ## `regexp/syntax`: `parseEscape` -/

/-- Go `isalnum`: ASCII letter or digit. -/
def isalnum (c : Char) : Bool :=
  (48 ≤ c.toNat && c.toNat ≤ 57) || (65 ≤ c.toNat && c.toNat ≤ 90) ||
    (97 ≤ c.toNat && c.toNat ≤ 122)

/-- Go `unhex`: value of a hexadecimal digit (`none` where Go returns -1). -/
def unhex (c : Char) : Option Nat :=
  if 48 ≤ c.toNat ∧ c.toNat ≤ 57 then some (c.toNat - 48)
  else if 97 ≤ c.toNat ∧ c.toNat ≤ 102 then some (c.toNat - 97 + 10)
  else if 65 ≤ c.toNat ∧ c.toNat ≤ 70 then some (c.toNat - 65 + 10)
  else none

/-- Whether the rune is an octal digit. -/
def isOctal (c : Char) : Bool := 48 ≤ c.toNat && c.toNat ≤ 55

/-- The text consumed so far: Go `s[:len(s)-len(t)]`. -/
def consumed (s t : List Char) : String := String.mk (s.take (s.length - t.length))

/-- The error every failing branch of `parseEscape` ends in. -/
def invalidEscape {α : Type} (s t : List Char) : Parsed α :=
  .error .ErrInvalidEscape (consumed s t)

/-- Up to `n` further octal digits of an octal escape. -/
def octalDigits : Nat → Nat → List Char → Nat × List Char
  | 0, r, t => (r, t)
  | _ + 1, r, [] => (r, [])
  | n + 1, r, c :: t =>
    if isOctal c then octalDigits n (r * 8 + (c.toNat - 48)) t else (r, c :: t)

/-- The loop of `parseEscape` for `\x{...}`: any number of hex digits up to the
closing brace, at least one, value at most `unicode.MaxRune`. -/
def hexBraces (s : List Char) : List Char → Nat → Nat → Parsed (Nat × List Char)
  | [], _, _ => invalidEscape s []
  | c :: t, r, nhex =>
    if c = '}' then
      (if nhex = 0 then invalidEscape s t else .ok (r, t))
    else
      match unhex c with
      | none => invalidEscape s t
      | some v =>
        if r * 16 + v > 0x10FFFF then invalidEscape s t
        else hexBraces s t (r * 16 + v) (nhex + 1)

/-- Go `parseEscape`: `s` starts with a backslash; the result is the rune the
escape denotes and the rest of the text. -/
def parseEscape (s : List Char) : Parsed (Nat × List Char) :=
  match s.tail with
  | [] => .error .ErrTrailingBackslash ""
  | c :: t =>
    if c = '0' then .ok (octalDigits 2 (c.toNat - 48) t)
    else if 49 ≤ c.toNat ∧ c.toNat ≤ 55 then
      -- a single non-zero digit is a backreference: not supported
      match t with
      | [] => invalidEscape s t
      | d :: _ => if isOctal d then .ok (octalDigits 2 (c.toNat - 48) t) else invalidEscape s t
    else if c = 'x' then
      match t with
      | [] => invalidEscape s t
      | c1 :: t1 =>
        if c1 = '{' then hexBraces s t1 0 0
        else
          match t1 with
          | [] => invalidEscape s t1
          | c2 :: t2 =>
            match unhex c1, unhex c2 with
            | some x, some y => .ok (x * 16 + y, t2)
            | _, _ => invalidEscape s t2
    else if c = 'a' then .ok (7, t)
    else if c = 'f' then .ok (12, t)
    else if c = 'n' then .ok (10, t)
    else if c = 'r' then .ok (13, t)
    else if c = 't' then .ok (9, t)
    else if c = 'v' then .ok (11, t)
    else if c.toNat < 0x80 ∧ isalnum c = false then
      -- escaped non-word characters are always themselves
      .ok (c.toNat, t)
    else invalidEscape s t

/-! ## `regexp/syntax`: Perl classes and bracket classes -/

/-- Go `perlGroup`: the rune ranges of `\d`, `\s`, `\w`; the negated groups
`\D`, `\S`, `\W` are flagged as outside the embedding by `none` inside. -/
def perlGroup (c : Char) : Option (Option (List (Nat × Nat))) :=
  if c = 'd' then some (some [(48, 57)])
  else if c = 's' then some (some [(9, 10), (12, 13), (32, 32)])
  else if c = 'w' then some (some [(48, 57), (65, 90), (95, 95), (97, 122)])
  else if c = 'D' ∨ c = 'S' ∨ c = 'W' then some none
  else none

/-- Go `parseClassChar`: one rune of a bracket class, escaped or not. -/
def parseClassChar (s wholeClass : List Char) : Parsed (Nat × List Char) :=
  match s with
  | [] => .error .ErrMissingBracket (String.mk wholeClass)
  | c :: t => if c = '\\' then parseEscape s else .ok (c.toNat, t)

/-- The loop of Go `parseClass` (flags `syntax.Perl`): `t` is the text after
the opening bracket and the optional `^`, `cls` the ranges collected so far,
`first` whether no member has been read yet. Each round consumes at least one
rune of `t`; `fuel` bounds the number of rounds by the length of the text. -/
def parseClassLoop (whole : List Char) :
    Nat → List Char → Bool → List (Nat × Nat) → Parsed (List (Nat × Nat) × List Char)
  | 0, _, _, _ => .outside
  | fuel + 1, t, first, cls =>
    match t, first with
    | ']' :: rest, false => .ok (cls, rest)
    | _, _ =>
      match t with
      | '[' :: ':' :: _ => .outside
      | '\\' :: 'p' :: _ => .outside
      | '\\' :: 'P' :: _ => .outside
      | _ =>
        match (match t with
               | '\\' :: c :: rest => (perlGroup c).map (fun g => (g, rest))
               | _ => none) with
        | some (none, _) => .outside
        | some (some rs, rest) => parseClassLoop whole fuel rest false (cls ++ rs)
        | none =>
          match parseClassChar t whole with
          | .error code e => .error code e
          | .outside => .outside
          | .ok (lo, t1) =>
            match t1 with
            | '-' :: c :: t2 =>
              if c = ']' then parseClassLoop whole fuel t1 false (cls ++ [(lo, lo)])
              else
                match parseClassChar (c :: t2) whole with
                | .error code e => .error code e
                | .outside => .outside
                | .ok (hi, t3) =>
                  if hi < lo then .error .ErrInvalidCharRange (consumed t t3)
                  else parseClassLoop whole fuel t3 false (cls ++ [(lo, hi)])
            | _ => parseClassLoop whole fuel t1 false (cls ++ [(lo, lo)])

/-- Go `parseClass`: `s` starts with the opening bracket. -/
def parseClass (s : List Char) : Parsed (Atom × List Char) :=
  match s.tail with
  | '^' :: t =>
    match parseClassLoop s (t.length + 1) t true [] with
    | .ok (cls, rest) => .ok (.charClass true cls, rest)
    | .error code e => .error code e
    | .outside => .outside
  | t =>
    match parseClassLoop s (t.length + 1) t true [] with
    | .ok (cls, rest) => .ok (.charClass false cls, rest)
    | .error code e => .error code e
    | .outside => .outside

/-! ## `regexp/syntax`: `Parse` -/

/-- The main loop of Go `Parse` with flags `syntax.Perl`, on the fragment
without groups: `stack` holds the operands read so far (most recent first),
`lastRepeat` is whether the previous token was a repetition operator. -/
def parseLoop : Nat → List Char → List Piece → Bool → Parsed (List Piece)
  | 0, _, _, _ => .outside
  | fuel + 1, t, stack, lastRepeat =>
    match t with
    | [] => .ok stack.reverse
    | '^' :: rest => parseLoop fuel rest (⟨.beginText, false⟩ :: stack) false
    | '[' :: _ =>
      match parseClass t with
      | .ok (a, rest) => parseLoop fuel rest (⟨a, false⟩ :: stack) false
      | .error code e => .error code e
      | .outside => .outside
    | '*' :: after =>
      match after with
      | '?' :: _ => .outside
      | _ =>
        if lastRepeat then .error .ErrInvalidRepeatOp (String.mk ['*', '*'])
        else
          match stack with
          | [] => .error .ErrMissingRepeatArgument (consumed t after)
          | p :: ps => parseLoop fuel after (⟨p.atom, true⟩ :: ps) true
    | '\\' :: c :: rest =>
      if c = 'A' ∨ c = 'b' ∨ c = 'B' ∨ c = 'C' ∨ c = 'Q' ∨ c = 'z' ∨ c = 'p' ∨ c = 'P' then
        .outside
      else
        match perlGroup c with
        | some none => .outside
        | some (some rs) => parseLoop fuel rest (⟨.charClass false rs, false⟩ :: stack) false
        | none =>
          match parseEscape t with
          | .ok (r, rest1) => parseLoop fuel rest1 (⟨.literal r, false⟩ :: stack) false
          | .error code e => .error code e
          | .outside => .outside
    | '\\' :: [] => .error .ErrTrailingBackslash ""
    | c :: rest =>
      if c = '(' ∨ c = ')' ∨ c = '|' ∨ c = '$' ∨ c = '.' ∨ c = '+' ∨ c = '?' ∨ c = '{' then
        .outside
      else parseLoop fuel rest (⟨.literal c.toNat, false⟩ :: stack) false

/-- Go `syntax.Parse(expr, syntax.Perl)`. -/
def Parse (expr : String) : Parsed (List Piece) :=
  parseLoop (expr.toList.length + 1) expr.toList [] false

/-! ## `regexp`: `Compile` and `MustCompile` -/

/-- A Go run-time panic. -/
inductive GoPanic
  | regexpCompile (expr : String) (code : ErrorCode) (bad : String)
  | indexOutOfRange (index length : Nat)
  deriving DecidableEq, Repr

/-- Outcome of running Go code: it returns a value or it panics. -/
inductive Exec (α : Type)
  | ret (a : α)
  | panic (p : GoPanic)
  deriving DecidableEq, Repr

/-- Go `regexp.Compile`. -/
def Compile (expr : String) : Parsed Regexp :=
  match Parse expr with
  | .ok ps => .ok ⟨expr, ps⟩
  | .error code e => .error code e
  | .outside => .outside

/-- Go `regexp.MustCompile`: like `Compile` but panics if the expression
cannot be parsed. `none` when the pattern is outside the embedded fragment. -/
def MustCompile (str : String) : Option (Exec Regexp) :=
  match Compile str with
  | .ok re => some (.ret re)
  | .error code e => some (.panic (.regexpCompile str code e))
  | .outside => none

/-! ## `regexp`: matching -/

/-- Whether the atom consumes the rune `c`. -/
def Atom.accepts : Atom → Char → Bool
  | .literal r, c => decide (c.toNat = r)
  | .charClass negated ranges, c =>
    (ranges.any fun lohi => decide (lohi.1 ≤ c.toNat ∧ c.toNat ≤ lohi.2)) != negated
  | .beginText, _ => false

/-- Greedy `OpStar` over a rune-consuming atom, followed by the continuation
`k`: take as many runes as possible, give one back at a time while `k` fails. -/
def matchStar (a : Atom) (k : Nat → List Char → Option Nat) : Nat → List Char → Option Nat
  | pos, [] => k pos []
  | pos, c :: cs =>
    if a.accepts c then
      match matchStar a k (pos + 1) cs with
      | some e => some e
      | none => k pos (c :: cs)
    else k pos (c :: cs)

/-- Leftmost-first match of the concatenation starting at rune index `pos`,
where `rest` is the text from `pos` on: the end index of the match, if any.
`OpBeginText` holds at index 0 only; a star over it matches the empty text. -/
def matchHere : List Piece → Nat → List Char → Option Nat
  | [], pos, _ => some pos
  | ⟨.beginText, false⟩ :: ps, pos, rest => if pos = 0 then matchHere ps pos rest else none
  | ⟨.beginText, true⟩ :: ps, pos, rest => matchHere ps pos rest
  | ⟨a, true⟩ :: ps, pos, rest => matchStar a (matchHere ps) pos rest
  | ⟨_, false⟩ :: _, _, [] => none
  | ⟨a, false⟩ :: ps, pos, c :: cs => if a.accepts c then matchHere ps (pos + 1) cs else none

/-- Go `doExecute` from `pos`: the leftmost match starting at or after `pos`,
as the pair of its start and end indices. -/
def search (ps : List Piece) : Nat → List Char → Option (Nat × Nat)
  | pos, [] => (matchHere ps pos []).map fun e => (pos, e)
  | pos, c :: cs =>
    match matchHere ps pos (c :: cs) with
    | some e => some (pos, e)
    | none => search ps (pos + 1) cs

/-- Go `(*Regexp).MatchString`: whether the text contains any match. -/
def Regexp.MatchString (re : Regexp) (s : String) : Bool :=
  (search re.pieces 0 s.toList).isSome

/-- The loop of Go `(*Regexp).replaceAll`. `src` is the whole text, `repl` the
replacement text, `buf` the output so far. Each round moves `searchPos` forward
by at least one, so `src.length + 1` rounds always suffice
(see `replaceLoop_fuel`). -/
def replaceLoop (ps : List Piece) (src repl : List Char) :
    Nat → Nat → Nat → List Char → List Char
  | 0, lastMatchEnd, _, buf => buf ++ src.drop lastMatchEnd
  | fuel + 1, lastMatchEnd, searchPos, buf =>
    if searchPos ≤ src.length then
      match search ps searchPos (src.drop searchPos) with
      | none => buf ++ src.drop lastMatchEnd
      | some (a0, a1) =>
        -- copy the unmatched runes before this match
        let buf1 := buf ++ (src.drop lastMatchEnd).take (a0 - lastMatchEnd)
        -- insert the replacement, but not for an empty match right after a match
        let buf2 := if a1 > lastMatchEnd ∨ a0 = 0 then buf1 ++ repl else buf1
        -- advance past this match; always advance at least one rune
        let width := if searchPos < src.length then 1 else 0
        let searchPos1 :=
          if searchPos + width > a1 then searchPos + width
          else if searchPos + 1 > a1 then searchPos + 1
          else a1
        replaceLoop ps src repl fuel a1 searchPos1 buf2
    else buf ++ src.drop lastMatchEnd

/-- Go `(*Regexp).ReplaceAllString` for a replacement text without `$`
(the program only passes the empty text), which Go inserts verbatim. -/
def Regexp.ReplaceAllString (re : Regexp) (src repl : String) : String :=
  String.mk (replaceLoop re.pieces src.toList repl.toList (src.toList.length + 1) 0 0 [])

/-! ## The package-level pattern -/

/-- Line 19: the pattern text, a Go raw string (backslashes reach the regexp
parser unchanged). -/
def questionPatternSource : String := "^\\?[\\s\\u200c]*"

/-- Lines 18-20: the package-level initialiser of `questionPattern`. -/
def questionPattern : Option (Exec Regexp) := MustCompile questionPatternSource

/-- Line 69, second conjunct: `questionPattern.MatchString(message.Text)` on
the package-level variable. -/
def questionPatternMatchString (text : String) : Option (Exec Bool) :=
  questionPattern.map fun
    | .ret re => .ret (re.MatchString text)
    | .panic p => .panic p

/-- Line 70: `questionPattern.ReplaceAllString(message.Text, "")` on the
package-level variable. -/
def questionPatternReplaceAllString (text : String) : Option (Exec String) :=
  questionPattern.map fun
    | .ret re => .ret (re.ReplaceAllString text "")
    | .panic p => .panic p

/-! ## The completion client and the chat events (declared outside the repository) -/

/-- One turn of a conversation: `openai.Message`. -/
structure Message where
  Role : String
  Content : String
  deriving DecidableEq, Repr

/-- The type of the last argument of `CompleteConversation` (sampling
settings); the program only ever passes `nil`. -/
structure CompletionOptions where
  settings : List (String × String)
  deriving DecidableEq, Repr

/-- What one `CompleteConversation` call carries: the key the client was made
with, the model name, the conversation and the optional settings. -/
structure CompletionRequest where
  apiKey : String
  model : String
  conversation : List Message
  options : Option CompletionOptions
  deriving DecidableEq, Repr

/-- One candidate reply: `response.Choices[i]`. -/
structure Choice where
  Message : Message
  deriving DecidableEq, Repr

/-- The response of `CompleteConversation`. -/
structure CompletionResponse where
  Choices : List Choice
  deriving DecidableEq, Repr

/-- The completion service: the Go pair `(response, err)` for a request, the
error given by its message. -/
abbrev CompletionClient := CompletionRequest → CompletionResponse × Option String

/-- The message of a chat event: `chat.Message`, of which only `Text` is read. -/
structure ChatMessage where
  Text : String
  deriving DecidableEq, Repr

/-- An inbound event: `chat.Event`; `Message` is a pointer and may be nil. -/
structure Event where
  Message : Option ChatMessage
  deriving DecidableEq, Repr

/-! ## Observable effects -/

/-- What the program has done so far: the requests sent to the completion
service, the arguments `processQuestion` was called with, and the log records
written (the text after the logger's timestamp prefix). -/
structure World where
  requests : List CompletionRequest
  questions : List String
  logs : List String
  deriving DecidableEq, Repr

/-- Nothing has happened yet. -/
def World.empty : World := ⟨[], [], []⟩

/-! ## `processQuestion` (lines 45-64) -/

/-- Lines 47-56: the request `processQuestion` sends for a question. -/
def completionRequest (getenv : String → String) (question : String) : CompletionRequest :=
  { apiKey := getenv "OPENAI_API_KEY"
    model := getenv "OPENAI_MODEL_NAME"
    conversation :=
      [ { Role := "system", Content := "You are a helpful assistant." },
        { Role := "user", Content := question } ]
    options := none }

/-- Lines 45-64. The result is the Go pair `(string, error)`, or a panic when
the index expression `response.Choices[0]` is out of range. -/
def processQuestion (getenv : String → String) (client : CompletionClient)
    (question : String) (w : World) : Exec (String × Option String) × World :=
  let w1 : World :=
    { w with questions := w.questions ++ [question]
             requests := w.requests ++ [completionRequest getenv question] }
  match client (completionRequest getenv question) with
  | (_, some err) => (.ret ("", some ("failed to process question: " ++ err)), w1)
  | (response, none) =>
    match response.Choices[0]? with
    | none => (.panic (.indexOutOfRange 0 response.Choices.length), w1)
    | some choice => (.ret (choice.Message.Content, none), w1)

/-! ## `handleChatEvent` (lines 66-83) and the dispatch loop (lines 110-113) -/

/-- Lines 66-83, with the value of the package-level variable
`questionPattern` as an explicit argument. -/
def handleChatEvent (questionPattern : Regexp) (getenv : String → String)
    (client : CompletionClient) (event : Event) (w : World) : Exec Unit × World :=
  match event.Message with
  | none => (.ret (), w)
  | some message =>
    if questionPattern.MatchString message.Text then
      let question := questionPattern.ReplaceAllString message.Text ""
      match processQuestion getenv client question w with
      | (.panic p, w1) => (.panic p, w1)
      | (.ret (_, some err), w1) =>
        (.ret (), { w1 with logs := w1.logs ++ ["Error processing question: " ++ err] })
      | (.ret (response, none), w1) =>
        (.ret (), { w1 with logs := w1.logs ++
          ["Question: " ++ question, "Response: " ++ response, "-----"] })
    else (.ret (), w)

/-- Lines 110-113: the events delivered on the channel are handled one at a
time, in order; a panic in a handler ends the loop. -/
def mainLoop (questionPattern : Regexp) (getenv : String → String)
    (client : CompletionClient) : List Event → World → Exec Unit × World
  | [], w => (.ret (), w)
  | event :: events, w =>
    match handleChatEvent questionPattern getenv client event w with
    | (.ret (), w1) => mainLoop questionPattern getenv client events w1
    | (.panic p, w1) => (.panic p, w1)

/-- Program start: the package-level variables are initialised before `main`
runs, so a panic in the initialiser of `questionPattern` ends the program
before any event is handled. Of `main`, the dispatch loop is embedded; its
start-up calls (environment file, chat service, subscription) are taken to have
succeeded and delivered `events`. -/
def run (getenv : String → String) (client : CompletionClient) (events : List Event) :
    Option (Exec Unit × World) :=
  questionPattern.map fun
    | .ret re => mainLoop re getenv client events World.empty
    | .panic p => (.panic p, World.empty)

/-! ## Concrete values used in examples -/

/-- The expression that `questionPatternSource` is after, as `Compile` returns
it when U+200C is spelled `\x{200c}`, the spelling `parseEscape` accepts: start of
text, `?`, then any run of `\s` runes or U+200C. -/
def zwnjPattern : Regexp :=
  { expr := "^\\?[\\s\\x\x7b200c\x7d]*"
    pieces :=
      [ ⟨.beginText, false⟩, ⟨.literal 63, false⟩,
        ⟨.charClass false [(9, 10), (12, 13), (32, 32), (8204, 8204)], true⟩ ] }

/-- The runes that the class of `zwnjPattern` accepts: the `\s` runes and
U+200C. -/
def isSeparator (c : Char) : Bool :=
  (Atom.charClass false [(9, 10), (12, 13), (32, 32), (8204, 8204)]).accepts c

/-- An environment with a key and a model name. -/
def sampleEnv : String → String := fun name =>
  if name = "OPENAI_API_KEY" then "sk-test"
  else if name = "OPENAI_MODEL_NAME" then "gpt-test"
  else ""

/-- A completion service that answers every request with the given candidates. -/
def stubClient (contents : List String) : CompletionClient := fun _ =>
  (⟨contents.map fun c => ⟨⟨"assistant", c⟩⟩⟩, none)

/-- A completion service whose every call fails with the given error. -/
def failingClient (err : String) : CompletionClient := fun _ => (⟨[]⟩, some err)

/-! ## Helper lemmas -/

/-- The initialiser of `questionPattern` evaluates to a panic. -/
theorem questionPattern_eq :
    questionPattern =
      some (.panic (.regexpCompile questionPatternSource .ErrInvalidEscape "\\u")) := rfl

/-- What `Compile` answers on some small patterns: `\x41` and an escaped
underscore are literals, `\8` and `\u` are invalid escapes, a doubled star is
an invalid repetition, and a class left open misses its bracket. -/
theorem Compile_examples :
    Compile "\\x41\\_" = .ok ⟨"\\x41\\_", [⟨.literal 65, false⟩, ⟨.literal 95, false⟩]⟩ ∧
      Compile "\\8" = .error .ErrInvalidEscape "\\8" ∧
      Compile "\\u200c" = .error .ErrInvalidEscape "\\u" ∧
      Compile "a**" = .error .ErrInvalidRepeatOp "**" ∧
      Compile "[a-" = .error .ErrMissingBracket "[a-" :=
  ⟨rfl, rfl, rfl, rfl, rfl⟩

/-- `zwnjPattern` is what `Compile` makes of its pattern text. -/
theorem Compile_zwnjPattern : Compile zwnjPattern.expr = .ok zwnjPattern := rfl

/-- The effects of `processQuestion`: one recorded call and one request. -/
theorem processQuestion_world (getenv : String → String) (client : CompletionClient)
    (question : String) (w : World) :
    (processQuestion getenv client question w).2 =
      { w with questions := w.questions ++ [question]
               requests := w.requests ++ [completionRequest getenv question] } := by
  unfold processQuestion
  rcases h : client (completionRequest getenv question) with ⟨response, _ | err⟩
  · cases h0 : response.Choices[0]? <;> simp [h0]
  · simp

/-- What `processQuestion` returns, by cases on the service's answer. -/
theorem processQuestion_result (getenv : String → String) (client : CompletionClient)
    (question : String) (w : World) :
    (processQuestion getenv client question w).1 =
      match client (completionRequest getenv question) with
      | (_, some err) => .ret ("", some ("failed to process question: " ++ err))
      | (response, none) =>
        match response.Choices with
        | [] => .panic (.indexOutOfRange 0 0)
        | choice :: _ => .ret (choice.Message.Content, none) := by
  unfold processQuestion
  rcases h : client (completionRequest getenv question) with ⟨response, _ | err⟩
  · rcases hc : response.Choices with _ | ⟨choice, rest⟩ <;> simp [hc]
  · simp

/-- A question event whose completion succeeds, under any compiled pattern:
`handleChatEvent` calls `processQuestion` once on the stripped text, one
request is sent, and exactly the records "Question: ", "Response: " and the
separator are written, in this order. -/
theorem handleChatEvent_answered (re : Regexp) (getenv : String → String)
    (client : CompletionClient) (text : String) (w : World)
    (response : CompletionResponse) (choice : Choice) (rest : List Choice)
    (hmatch : re.MatchString text = true)
    (hcall : client (completionRequest getenv (re.ReplaceAllString text "")) = (response, none))
    (hchoices : response.Choices = choice :: rest) :
    handleChatEvent re getenv client ⟨some ⟨text⟩⟩ w =
      (.ret (),
        { requests := w.requests ++ [completionRequest getenv (re.ReplaceAllString text "")]
          questions := w.questions ++ [re.ReplaceAllString text ""]
          logs := w.logs ++
            ["Question: " ++ re.ReplaceAllString text "",
             "Response: " ++ choice.Message.Content, "-----"] }) := by
  simp [handleChatEvent, hmatch, processQuestion, hcall, hchoices]

/-- The success path on the text "? hello" with a service offering two
candidates. -/
theorem handleChatEvent_answered_witness :
    zwnjPattern.MatchString "? hello" = true ∧
      stubClient ["hi", "hey"]
          (completionRequest sampleEnv (zwnjPattern.ReplaceAllString "? hello" "")) =
        (⟨[⟨⟨"assistant", "hi"⟩⟩, ⟨⟨"assistant", "hey"⟩⟩]⟩, none) ∧
      handleChatEvent zwnjPattern sampleEnv (stubClient ["hi", "hey"]) ⟨some ⟨"? hello"⟩⟩
          World.empty =
        (.ret (),
          { requests := World.empty.requests ++
              [completionRequest sampleEnv (zwnjPattern.ReplaceAllString "? hello" "")]
            questions := World.empty.questions ++ [zwnjPattern.ReplaceAllString "? hello" ""]
            logs := World.empty.logs ++
              ["Question: " ++ zwnjPattern.ReplaceAllString "? hello" "",
               "Response: " ++ "hi", "-----"] }) :=
  ⟨rfl, rfl,
    handleChatEvent_answered zwnjPattern sampleEnv (stubClient ["hi", "hey"]) "? hello"
      World.empty ⟨[⟨⟨"assistant", "hi"⟩⟩, ⟨⟨"assistant", "hey"⟩⟩]⟩ ⟨⟨"assistant", "hi"⟩⟩
      [⟨⟨"assistant", "hey"⟩⟩] rfl rfl rfl⟩

/-- A question event whose completion call errors: one `processQuestion` call,
one error record, normal return. -/
theorem handleChatEvent_failed (re : Regexp) (getenv : String → String)
    (client : CompletionClient) (text : String) (w : World)
    (response : CompletionResponse) (cause : String)
    (hmatch : re.MatchString text = true)
    (hcall : client (completionRequest getenv (re.ReplaceAllString text "")) =
      (response, some cause)) :
    handleChatEvent re getenv client ⟨some ⟨text⟩⟩ w =
      (.ret (),
        { requests := w.requests ++ [completionRequest getenv (re.ReplaceAllString text "")]
          questions := w.questions ++ [re.ReplaceAllString text ""]
          logs := w.logs ++
            ["Error processing question: " ++ ("failed to process question: " ++ cause)] }) := by
  simp [handleChatEvent, hmatch, processQuestion, hcall]

/-- A star never ends before it starts, if its continuation does not. -/
theorem matchStar_ge (a : Atom) (k : Nat → List Char → Option Nat)
    (hk : ∀ pos rest e, k pos rest = some e → pos ≤ e) :
    ∀ (rest : List Char) (pos e : Nat), matchStar a k pos rest = some e → pos ≤ e := by
  intro rest
  induction rest with
  | nil => intro pos e h; exact hk _ _ _ h
  | cons c cs ih =>
    intro pos e h
    unfold matchStar at h
    split at h
    · split at h
      · next e1 h1 =>
        cases h
        have := ih _ _ h1
        omega
      · exact hk _ _ _ h
    · exact hk _ _ _ h

/-- A match ends at or after the index it starts at. -/
theorem matchHere_ge : ∀ (ps : List Piece) (pos : Nat) (rest : List Char) (e : Nat),
    matchHere ps pos rest = some e → pos ≤ e := by
  intro ps
  induction ps with
  | nil => intro pos rest e h; simp [matchHere] at h; omega
  | cons p ps ih =>
    intro pos rest e h
    rcases p with ⟨a, st⟩
    cases a with
    | beginText =>
      cases st
      · simp only [matchHere] at h
        split at h
        · exact ih _ _ _ h
        · cases h
      · simp only [matchHere] at h
        exact ih _ _ _ h
    | literal r =>
      cases st
      · cases rest with
        | nil => simp [matchHere] at h
        | cons c cs =>
          simp only [matchHere] at h
          split at h
          · have := ih _ _ _ h; omega
          · cases h
      · simp only [matchHere] at h
        exact matchStar_ge _ _ (fun p r e => ih p r e) _ _ _ h
    | charClass n rs =>
      cases st
      · cases rest with
        | nil => simp [matchHere] at h
        | cons c cs =>
          simp only [matchHere] at h
          split at h
          · have := ih _ _ _ h; omega
          · cases h
      · simp only [matchHere] at h
        exact matchStar_ge _ _ (fun p r e => ih p r e) _ _ _ h

/-- A match found from `pos` starts at or after `pos` and ends at or after its
start. -/
theorem search_bounds (ps : List Piece) : ∀ (rest : List Char) (pos a0 a1 : Nat),
    search ps pos rest = some (a0, a1) → pos ≤ a0 ∧ a0 ≤ a1 := by
  intro rest
  induction rest with
  | nil =>
    intro pos a0 a1 h
    simp only [search, Option.map_eq_some'] at h
    obtain ⟨e, he, hp⟩ := h
    cases hp
    exact ⟨le_refl _, matchHere_ge _ _ _ _ he⟩
  | cons c cs ih =>
    intro pos a0 a1 h
    simp only [search] at h
    split at h
    · next e he =>
      cases h
      exact ⟨le_refl _, matchHere_ge _ _ _ _ he⟩
    · have := ih _ _ _ h
      omega

/-- The fuel of `replaceLoop` does not matter once it covers the runes left:
the loop has ended by itself before the fuel is used up. -/
theorem replaceLoop_fuel (ps : List Piece) (src repl : List Char) :
    ∀ (fuel₁ fuel₂ lastMatchEnd searchPos : Nat) (buf : List Char),
      src.length + 1 ≤ searchPos + fuel₁ → src.length + 1 ≤ searchPos + fuel₂ →
      replaceLoop ps src repl fuel₁ lastMatchEnd searchPos buf =
        replaceLoop ps src repl fuel₂ lastMatchEnd searchPos buf := by
  intro fuel₁
  induction fuel₁ with
  | zero =>
    intro fuel₂ l sp buf h1 _
    cases fuel₂ with
    | zero => rfl
    | succ m =>
      have : ¬ sp ≤ src.length := by omega
      simp [replaceLoop, this]
  | succ n ih =>
    intro fuel₂ l sp buf h1 h2
    cases fuel₂ with
    | zero =>
      have : ¬ sp ≤ src.length := by omega
      simp [replaceLoop, this]
    | succ m =>
      simp only [replaceLoop]
      split
      · next hle =>
        split
        · rfl
        · next a0 a1 hs =>
          have hb := search_bounds ps _ _ _ _ hs
          apply ih
          · split_ifs <;> omega
          · split_ifs <;> omega
      · rfl


/-- The separators are tab, line feed, form feed, carriage return, blank and
U+200C. -/
theorem isSeparator_iff (c : Char) :
    isSeparator c = true ↔
      c = '\t' ∨ c = '\n' ∨ c = '\x0c' ∨ c = '\r' ∨ c = ' ' ∨ c = '\u200c' := by
  have key : ∀ d : Char, c = d ↔ c.toNat = d.toNat := fun d =>
    ⟨fun h => h ▸ rfl, fun h => Char.ext (UInt32.ext h)⟩
  rw [key, key, key, key, key, key]
  simp only [isSeparator, Atom.accepts, List.any_cons, List.any_nil, Bool.or_false, bne_iff_ne,
    ne_eq, Bool.not_eq_false, Bool.or_eq_true, decide_eq_true_eq]
  have e1 : '\t'.toNat = 9 := rfl
  have e2 : '\n'.toNat = 10 := rfl
  have e3 : '\x0c'.toNat = 12 := rfl
  have e4 : '\r'.toNat = 13 := rfl
  have e5 : ' '.toNat = 32 := rfl
  have e6 : '\u200c'.toNat = 8204 := rfl
  rw [e1, e2, e3, e4, e5, e6]
  omega

/-- A star at the end of a pattern consumes the longest run of accepted runes. -/
theorem matchStar_end (a : Atom) : ∀ (rest : List Char) (pos : Nat),
    matchStar a (fun p _ => some p) pos rest =
      some (pos + (rest.takeWhile a.accepts).length) := by
  intro rest
  induction rest with
  | nil => intro pos; simp [matchStar]
  | cons c cs ih =>
    intro pos
    unfold matchStar
    by_cases h : a.accepts c = true
    · simp only [h, if_true, ih, List.takeWhile_cons_of_pos, List.length_cons]
      congr 1
      omega
    · simp [h]

/-- At index 0, `zwnjPattern` matches a leading `?` and the separators after it. -/
theorem matchHere_zwnj_start (s : List Char) :
    matchHere zwnjPattern.pieces 0 s =
      match s with
      | [] => none
      | c :: rest =>
        if c = '?' then some (1 + (rest.takeWhile isSeparator).length) else none := by
  cases s with
  | nil => rfl
  | cons c rest =>
    have key : c = '?' ↔ c.toNat = 63 :=
      ⟨fun h => h ▸ rfl, fun h => Char.ext (UInt32.ext h)⟩
    simp only [zwnjPattern, matchHere, if_true, Atom.accepts, decide_eq_true_eq]
    by_cases h : c.toNat = 63
    · rw [if_pos h, if_pos (key.2 h), matchStar_end, Nat.zero_add]
      rfl
    · rw [if_neg h, if_neg (fun hc => h (key.1 hc))]

/-- Past index 0, `zwnjPattern` does not match. -/
theorem matchHere_zwnj_later (pos : Nat) (hpos : 0 < pos) (s : List Char) :
    matchHere zwnjPattern.pieces pos s = none := by
  have : pos ≠ 0 := by omega
  simp [zwnjPattern, matchHere, this]

/-- A search for `zwnjPattern` that starts past index 0 finds nothing. -/
theorem search_zwnj_later : ∀ (s : List Char) (pos : Nat), 0 < pos →
    search zwnjPattern.pieces pos s = none := by
  intro s
  induction s with
  | nil => intro pos hpos; simp [search, matchHere_zwnj_later pos hpos]
  | cons c cs ih =>
    intro pos hpos
    simp [search, matchHere_zwnj_later pos hpos, ih (pos + 1) (by omega)]

/-- The only match of `zwnjPattern` in a text is the one at index 0. -/
theorem search_zwnj_start (s : List Char) :
    search zwnjPattern.pieces 0 s =
      match s with
      | [] => none
      | c :: rest =>
        if c = '?' then some (0, 1 + (rest.takeWhile isSeparator).length) else none := by
  cases s with
  | nil => rfl
  | cons c rest =>
    simp only [search, matchHere_zwnj_start]
    by_cases h : c = '?'
    · simp [h]
    · simp [h, search_zwnj_later]

/-- Under `zwnjPattern` a text matches exactly when it begins with `?`. -/
theorem zwnjPattern_MatchString (t : String) :
    zwnjPattern.MatchString t = true ↔ ∃ rest, t.toList = '?' :: rest := by
  unfold Regexp.MatchString
  rw [search_zwnj_start]
  cases h : t.toList with
  | nil => simp
  | cons c rest =>
    by_cases hc : c = '?'
    · simp [hc]
    · simp [hc]

/-- Dropping the length of the accepted prefix is dropping the prefix. -/
theorem drop_takeWhile_length (p : Char → Bool) : ∀ l : List Char,
    l.drop (l.takeWhile p).length = l.dropWhile p := by
  intro l
  induction l with
  | nil => rfl
  | cons c cs ih =>
    by_cases h : p c = true
    · simp [List.takeWhile_cons_of_pos h, List.dropWhile_cons_of_pos h, ih]
    · simp [List.takeWhile_cons_of_neg h, List.dropWhile_cons_of_neg h]

/-- Under `zwnjPattern`, `ReplaceAllString` with the empty replacement removes
the leading `?` and the separators after it, once, and nothing else. -/
theorem zwnjPattern_ReplaceAllString (rest : List Char) :
    zwnjPattern.ReplaceAllString (String.mk ('?' :: rest)) "" =
      String.mk (rest.dropWhile isSeparator) := by
  unfold Regexp.ReplaceAllString
  have hl : (String.mk ('?' :: rest)).toList = '?' :: rest := rfl
  rw [hl]
  simp only [List.length_cons, replaceLoop, Nat.zero_le, if_true, List.drop_zero,
    search_zwnj_start]
  have e : "".toList = [] := rfl
  simp only [e, List.append_nil, List.nil_append, Nat.sub_zero, List.take_zero]
  have hk : ∀ k : Nat, (if 0 + (if 0 < rest.length + 1 then 1 else 0) > 1 + k then
      0 + (if 0 < rest.length + 1 then 1 else 0) else if 0 + 1 > 1 + k then 0 + 1 else 1 + k) = 1 + k := by
    intro k; split_ifs <;> omega
  rw [hk]
  congr 1
  have hd : List.drop (1 + (List.takeWhile isSeparator rest).length) ('?' :: rest) =
      rest.dropWhile isSeparator := by
    rw [Nat.add_comm, List.drop_succ_cons, drop_takeWhile_length]
  rw [search_zwnj_later _ _ (by omega)]
  simp [hd]


/-- Under `zwnjPattern` a matching text is `?`, a run of separators, and the
question body, which does not start with a separator. -/
theorem zwnjPattern_strips (t : String) (h : zwnjPattern.MatchString t = true) :
    ∃ w body : List Char, t.toList = '?' :: (w ++ body) ∧ (∀ c ∈ w, isSeparator c = true) ∧
      (∀ c, body.head? = some c → isSeparator c = false) ∧
      zwnjPattern.ReplaceAllString t "" = String.mk body := by
  obtain ⟨rest, hrest⟩ := (zwnjPattern_MatchString t).1 h
  have ht : t = String.mk ('?' :: rest) := by
    rcases t with ⟨l⟩
    simp only [String.toList] at hrest
    rw [hrest]
  refine ⟨rest.takeWhile isSeparator, rest.dropWhile isSeparator, ?_, ?_, ?_, ?_⟩
  · rw [hrest, List.takeWhile_append_dropWhile]
  · intro c hc
    exact List.mem_takeWhile_imp hc
  · intro c hc
    have hmem := List.head?_dropWhile_not isSeparator rest
    rw [hc] at hmem
    simpa using hmem
  · rw [ht, zwnjPattern_ReplaceAllString]

/-- Under `zwnjPattern` the question body is empty exactly when nothing but
separators follows the `?`. -/
theorem zwnjPattern_body_empty_iff (rest : List Char) :
    zwnjPattern.ReplaceAllString (String.mk ('?' :: rest)) "" = "" ↔
      ∀ c ∈ rest, isSeparator c = true := by
  rw [zwnjPattern_ReplaceAllString]
  have e : ("" : String) = String.mk [] := rfl
  rw [e]
  constructor
  · intro h
    have h2 : List.dropWhile isSeparator rest = [] := congrArg String.data h
    exact List.dropWhile_eq_nil_iff.1 h2
  · intro h
    rw [List.dropWhile_eq_nil_iff.2 h]

/-- With `zwnjPattern` in `questionPattern`, the end-to-end scenario of the
specification runs as described there. -/
theorem handleChatEvent_zwnj_scenario :
    handleChatEvent zwnjPattern sampleEnv (stubClient ["4"])
        ⟨some ⟨"?\u200cwhat is 2+2"⟩⟩ World.empty =
      (.ret (),
        { requests := [completionRequest sampleEnv "what is 2+2"]
          questions := ["what is 2+2"]
          logs := ["Question: what is 2+2", "Response: 4", "-----"] }) := rfl

/-! ## The claims -/

/-- C10 (the code departs from it): compiling the pattern text of line 19 does
not succeed. The parser reaches the escape `\u` inside the bracket class,
`parseEscape` has no case for `u`, and `regexp.MustCompile` panics with
"invalid escape sequence" on the text `\u`; no pattern is produced. -/
theorem questionPattern_initialiser_panics :
    MustCompile questionPatternSource =
        some (.panic (.regexpCompile "^\\?[\\s\\u200c]*" .ErrInvalidEscape "\\u")) ∧
      parseEscape ("\\u200c]*".toList) = .error .ErrInvalidEscape "\\u" ∧
      ∀ re : Regexp, questionPattern ≠ some (.ret re) := by
  refine ⟨rfl, rfl, ?_⟩
  intro re h
  rw [questionPattern_eq] at h
  cases h

/-- C1 (the code departs from it): `questionPattern.MatchString(t)` never
evaluates to true, not even for `"?hello"` or `"? hello"`, because the
initialiser of `questionPattern` panics before any text is matched. -/
theorem questionPattern_MatchString_never_true :
    questionPatternMatchString "?hello" =
        some (.panic (.regexpCompile questionPatternSource .ErrInvalidEscape "\\u")) ∧
      questionPatternMatchString "? hello" =
        some (.panic (.regexpCompile questionPatternSource .ErrInvalidEscape "\\u")) ∧
      ∀ t : String, questionPatternMatchString t ≠ some (.ret true) := by
  refine ⟨rfl, rfl, ?_⟩
  intro t h
  simp [questionPatternMatchString, questionPattern_eq] at h

/-- C2 (the code departs from it): `questionPattern.ReplaceAllString(t, "")`
yields no question body, for `"? hello"`, `"??x"` and `"?a ?b"` as for every
other text, because the initialiser of `questionPattern` panics. -/
theorem questionPattern_ReplaceAllString_no_body :
    questionPatternReplaceAllString "? hello" =
        some (.panic (.regexpCompile questionPatternSource .ErrInvalidEscape "\\u")) ∧
      questionPatternReplaceAllString "??x" ≠ some (.ret "?x") ∧
      questionPatternReplaceAllString "?a ?b" ≠ some (.ret "a ?b") ∧
      ∀ t body : String, questionPatternReplaceAllString t ≠ some (.ret body) := by
  have h : ∀ t body : String, questionPatternReplaceAllString t ≠ some (.ret body) := by
    intro t body h
    simp [questionPatternReplaceAllString, questionPattern_eq] at h
  exact ⟨rfl, h _ _, h _ _, h⟩

/-- C3 (the code departs from it): on the event with text
`"?" ++ U+200C ++ "what is 2+2"` and a service that replies `"4"`, the program
calls no processor and writes no record: it has panicked in the initialiser of
`questionPattern`. -/
theorem run_end_to_end_panics :
    run sampleEnv (stubClient ["4"]) [⟨some ⟨"?\u200cwhat is 2+2"⟩⟩] =
      some (.panic (.regexpCompile questionPatternSource .ErrInvalidEscape "\\u"),
        { requests := [], questions := [], logs := [] }) := rfl

/-- C4: an event without a message, and an event whose text does not match the
pattern held by `questionPattern`, returns normally and leaves the world as it
was: no `processQuestion` call, no request, no log record. -/
theorem handleChatEvent_skips (re : Regexp) (getenv : String → String)
    (client : CompletionClient) (event : Event) (w : World)
    (h : event.Message = none ∨
      ∃ m, event.Message = some m ∧ re.MatchString m.Text = false) :
    handleChatEvent re getenv client event w = (.ret (), w) := by
  rcases h with h | ⟨m, hm, hno⟩
  · simp [handleChatEvent, h]
  · simp [handleChatEvent, hm, hno]

/-- C4 at the text "hello?", which does not start with `?`. -/
theorem handleChatEvent_skips_witness :
    ((⟨some ⟨"hello?"⟩⟩ : Event).Message = none ∨
        ∃ m, (⟨some ⟨"hello?"⟩⟩ : Event).Message = some m ∧
          zwnjPattern.MatchString m.Text = false) ∧
      handleChatEvent zwnjPattern sampleEnv (stubClient ["4"]) ⟨some ⟨"hello?"⟩⟩ World.empty =
        (.ret (), World.empty) :=
  ⟨Or.inr ⟨⟨"hello?"⟩, rfl, rfl⟩,
    handleChatEvent_skips zwnjPattern sampleEnv (stubClient ["4"]) ⟨some ⟨"hello?"⟩⟩ World.empty
      (Or.inr ⟨⟨"hello?"⟩, rfl, rfl⟩)⟩

/-- C5: for every question `q`, `processQuestion` sends exactly one request; its
conversation is the system turn "You are a helpful assistant." followed by the
user turn with `q` unchanged, its model is the configured `OPENAI_MODEL_NAME`,
and its settings argument is nil. -/
theorem processQuestion_request (getenv : String → String) (client : CompletionClient)
    (q : String) (w : World) :
    (processQuestion getenv client q w).2.requests =
      w.requests ++
        [{ apiKey := getenv "OPENAI_API_KEY"
           model := getenv "OPENAI_MODEL_NAME"
           conversation := [⟨"system", "You are a helpful assistant."⟩, ⟨"user", q⟩]
           options := none }] := by
  rw [processQuestion_world]
  rfl

/-- C6: when the completion call returns no error and at least one candidate,
`processQuestion` returns the content of candidate 0 and a nil error, whatever
the later candidates are. -/
theorem processQuestion_first_candidate (getenv : String → String)
    (client : CompletionClient) (question : String) (w : World)
    (response : CompletionResponse) (choice : Choice) (rest : List Choice)
    (hcall : client (completionRequest getenv question) = (response, none))
    (hchoices : response.Choices = choice :: rest) :
    (processQuestion getenv client question w).1 = .ret (choice.Message.Content, none) := by
  rw [processQuestion_result, hcall]
  simp [hchoices]

/-- C6 with the candidates "4" and "five": the result is "4". -/
theorem processQuestion_first_candidate_witness :
    stubClient ["4", "five"] (completionRequest sampleEnv "what is 2+2") =
        (⟨[⟨⟨"assistant", "4"⟩⟩, ⟨⟨"assistant", "five"⟩⟩]⟩, none) ∧
      (processQuestion sampleEnv (stubClient ["4", "five"]) "what is 2+2" World.empty).1 =
        .ret ("4", none) :=
  ⟨rfl,
    processQuestion_first_candidate sampleEnv (stubClient ["4", "five"]) "what is 2+2"
      World.empty ⟨[⟨⟨"assistant", "4"⟩⟩, ⟨⟨"assistant", "five"⟩⟩]⟩ ⟨⟨"assistant", "4"⟩⟩
      [⟨⟨"assistant", "five"⟩⟩] rfl rfl⟩

/-- C9: `processQuestion` indexes candidate 0 without a check. It panics with
"index out of range [0] with length 0", returning neither a reply nor an
error, exactly when the completion call returns no error and zero candidates;
with no error and at least one candidate it does not panic. -/
theorem processQuestion_panics_iff (getenv : String → String) (client : CompletionClient)
    (question : String) (w : World) :
    ((processQuestion getenv client question w).1 = .panic (.indexOutOfRange 0 0) ↔
        (client (completionRequest getenv question)).2 = none ∧
          (client (completionRequest getenv question)).1.Choices.length = 0) ∧
      (∀ p, (processQuestion getenv client question w).1 = .panic p →
        p = .indexOutOfRange 0 0) ∧
      ((client (completionRequest getenv question)).2 = none →
        ((∀ p, (processQuestion getenv client question w).1 ≠ .panic p) ↔
          1 ≤ (client (completionRequest getenv question)).1.Choices.length)) := by
  rw [processQuestion_result]
  rcases h : client (completionRequest getenv question) with ⟨response, _ | err⟩
  · rcases hc : response.Choices with _ | ⟨choice, rest⟩ <;> simp [hc]
  · simp

/-- C7 (the code departs from it): on a question event whose completion call
errors (text "?abc", a service failing with "timeout"), followed by another
event, the program writes no error record and does not return normally: it has
panicked in the initialiser of `questionPattern`, so no event is dispatched. -/
theorem run_failed_completion_panics :
    run sampleEnv (failingClient "timeout") [⟨some ⟨"?abc"⟩⟩, ⟨some ⟨"? hello"⟩⟩] =
        some (.panic (.regexpCompile questionPatternSource .ErrInvalidEscape "\\u"),
          { requests := [], questions := [], logs := [] }) ∧
      ∀ out : Exec Unit × World,
        run sampleEnv (failingClient "timeout") [⟨some ⟨"?abc"⟩⟩, ⟨some ⟨"? hello"⟩⟩] = some out →
          out.1 ≠ .ret () ∧ out.2.logs = [] := by
  refine ⟨rfl, ?_⟩
  intro out h
  have h0 : run sampleEnv (failingClient "timeout") [⟨some ⟨"?abc"⟩⟩, ⟨some ⟨"? hello"⟩⟩] =
      some (.panic (.regexpCompile questionPatternSource .ErrInvalidEscape "\\u"),
        { requests := [], questions := [], logs := [] }) := rfl
  rw [h0] at h
  cases h
  refine ⟨?_, rfl⟩
  intro hret
  cases hret

/-- Whatever the environment, the completion service and the events, the
program ends in the panic of the initialiser of `questionPattern` with no
request sent, no `processQuestion` call and no log record. -/
theorem run_always_panics (getenv : String → String) (client : CompletionClient)
    (events : List Event) :
    run getenv client events =
      some (.panic (.regexpCompile questionPatternSource .ErrInvalidEscape "\\u"),
        World.empty) := by
  simp [run, questionPattern_eq]

end JustAPlugin
